import Mathlib

/-!
# Crane Relay v2 event pipeline — verification development

A shallow embedding of the v2 event pipeline of the crane-relay worker
(`src/index.ts`): event validation, idempotent ingestion with hash-based
conflict detection, provenance verification with verdict downgrade, the
rolling-comment renderer and three-tier upsert, and the declarative label
transition engine.  External effects (the GitHub forge, the D1 database)
are modelled by an explicit oracle of per-operation responses and an
explicit database state; each pipeline run returns its response, the new
database state, and the trace of forge calls it issued.
-/

deriving instance DecidableEq for Except

namespace CraneRelay

/-- The literal marker embedded in every rolling status comment
(`RELAY_STATUS_MARKER` in the source). -/
def RELAY_STATUS_MARKER : String := "<!-- RELAY_STATUS v2 -->"

/-- Function `jsTrim` embeds JavaScript `String.prototype.trim`: drop whitespace from
both ends.  (Implemented on the character list so that it evaluates in the
kernel.) -/
def jsTrim (s : String) : String :=
  String.mk (((s.toList.dropWhile Char.isWhitespace).reverse.dropWhile Char.isWhitespace).reverse)

/-- Function `jsToLower` embeds JavaScript `String.prototype.toLowerCase` on the
ASCII range used by the pipeline. -/
def jsToLower (s : String) : String := String.mk (s.toList.map Char.toLower)

/-- Split a character list at every occurrence of `c` (the semantics of
`s.split("/")` used to model the repo-slug regex). -/
def splitOnChar (c : Char) : List Char → List (List Char)
  | [] => [[]]
  | x :: xs =>
    let r := splitOnChar c xs
    if x = c then [] :: r
    else match r with
      | h :: t => (x :: h) :: t
      | [] => [[x]]

/-- Predicate `isHexDigitChar c` mirrors membership of `c` in the character class
`[0-9a-f]` with the `i` flag, as used by `isHexSha`. -/
def isHexDigitChar (c : Char) : Bool :=
  c.isDigit || ('a' ≤ c && c ≤ 'f') || ('A' ≤ c && c ≤ 'F')

/-- Predicate `isHexSha` embeds the source predicate `/^[0-9a-f]{7,40}$/i.test(s)`. -/
def isHexSha (s : String) : Bool :=
  decide (7 ≤ s.length) && decide (s.length ≤ 40) && s.toList.all isHexDigitChar

/-- Predicate `isRepoSlug` embeds the source check `/^[^/]+\/[^/]+$/.test(s)`:
exactly one slash, nonempty on both sides. -/
def isRepoSlug (s : String) : Bool :=
  match splitOnChar '/' s.toList with
  | [a, b] => !a.isEmpty && !b.isEmpty
  | _ => false

/-- A validated scope result (`ScopeResult` in the source).  `status` is kept
as the coerced string; validation restricts it to PASS/FAIL/SKIPPED. -/
structure ScopeResult where
  id : String
  status : String
  notes : Option String
deriving DecidableEq, Repr

/-- An artifact record; carried through validation verbatim. -/
structure Artifact where
  type : String
  label : Option String
  href : String
deriving DecidableEq, Repr

/-- A validated build record (`RelayEvent["build"]` in the source).
`pr` is present only when the caller supplied a truthy integer. -/
structure Build where
  commit_sha : String
  pr : Option Int
deriving DecidableEq, Repr

/-- The validated, normalized event emitted by `validateEvent` — the
canonical payload whose JSON serialization is hashed and stored
(`RelayEvent` in the source).  `role`, `overall_verdict`, `severity` are
kept as strings exactly as the source stores them. -/
structure RelayEvent where
  event_id : String
  repo : String
  issue_number : Int
  role : String
  agent : String
  event_type : String
  summary : Option String
  environment : Option String
  build : Option Build
  overall_verdict : Option String
  scope_results : Option (List ScopeResult)
  severity : Option String
  repro_steps : Option String
  expected : Option String
  actual : Option String
  evidence_urls : Option (List String)
  artifacts : Option (List Artifact)
  details : Option String
deriving DecidableEq, Repr

/-- A raw scope entry as read off the inbound JSON (fields may be missing). -/
structure RawScope where
  id : Option String
  status : Option String
  notes : Option String
deriving DecidableEq, Repr

/-- A raw `build` object as read off the inbound JSON. -/
structure RawBuild where
  commit_sha : Option String
  pr : Option Int
deriving DecidableEq, Repr

/-- The inbound JSON payload handed to `validateEvent`.  Numeric fields are
modelled after the `safeInt` coercion (`none` = absent/uncoercible).
`evidence_urls` distinguishes absent (`none`), present-but-not-an-array
(`some none`) and an array (`some (some l)`).  `extra` carries the fields
of the payload that are not part of the event schema; the source validator
never reads them. -/
structure RawPayload where
  event_id : Option String
  repo : Option String
  issue_number : Option Int
  role : Option String
  agent : Option String
  event_type : Option String
  summary : Option String
  environment : Option String
  build : Option RawBuild
  overall_verdict : Option String
  scope_results : Option (List RawScope)
  severity : Option String
  repro_steps : Option String
  expected : Option String
  actual : Option String
  evidence_urls : Option (Option (List String))
  artifacts : Option (List Artifact)
  details : Option String
  extra : List (String × String)
deriving DecidableEq, Repr

/-- The five verdict strings accepted by the validator. -/
def verdictStrings : List String :=
  ["PASS", "FAIL", "BLOCKED", "PASS_UNVERIFIED", "FAIL_UNCONFIRMED"]

/-- Coercion of one raw scope entry (the `map` step of the source). -/
def coerceScope (r : RawScope) : ScopeResult :=
  ⟨jsTrim (r.id.getD ""), jsTrim (r.status.getD ""), r.notes⟩

/-- The per-element check loop over coerced scope results: first failing
element produces the diagnostic. -/
def scopeListError : List ScopeResult → Option String
  | [] => none
  | r :: rs =>
    if r.id = "" then some "scope_results[].id is required"
    else if ¬ (["PASS", "FAIL", "SKIPPED"].contains r.status) then
      some "scope_results[].status must be PASS|FAIL|SKIPPED"
    else scopeListError rs

/-- Validation of the optional `scope_results` list. -/
def validateScopes : Option (List RawScope) → Except String (Option (List ScopeResult))
  | none => .ok none
  | some rs =>
    if rs.length < 1 then .error "scope_results must be a non-empty array"
    else
      let mapped := rs.map coerceScope
      match scopeListError mapped with
      | some m => .error m
      | none => .ok (some mapped)

/-- Validation of the optional `build` object: the SHA is trimmed,
lowercased and checked against `isHexSha`; `pr` is kept only when truthy. -/
def validateBuild : Option RawBuild → Except String (Option Build)
  | none => .ok none
  | some rb =>
    let commit_sha := jsToLower (jsTrim (rb.commit_sha.getD ""))
    if commit_sha = "" ∨ ¬ isHexSha commit_sha then
      .error "build.commit_sha must be a hex sha (7-40 chars)"
    else
      let pr := match rb.pr with
        | some n => if n ≠ 0 then some n else none
        | none => none
      .ok (some ⟨commit_sha, pr⟩)

/-- Truthiness plus trimmed-length check used for `repro_steps`, `expected`
and `actual` on FAIL/BLOCKED verdicts (`!e[k] || trim().length < 3`). -/
def minLen3 (f : Option String) : Bool :=
  match f with
  | some v => v != "" && decide (3 ≤ (jsTrim v).length)
  | none => false

/-- The conditional-requirements block for FAIL/BLOCKED verdicts: severity
must be P0–P3 and each of the three diagnosis fields must have trimmed
length at least 3; returns the first diagnostic that trips. -/
def failBlockedError (e : RawPayload) : Option String :=
  if e.overall_verdict = some "FAIL" ∨ e.overall_verdict = some "BLOCKED" then
    if ¬ (["P0", "P1", "P2", "P3"].contains (e.severity.getD "")) then
      some "severity is required for FAIL/BLOCKED and must be P0|P1|P2|P3"
    else if ¬ minLen3 e.repro_steps then
      some "repro_steps is required for FAIL/BLOCKED (min length 3)"
    else if ¬ minLen3 e.expected then
      some "expected is required for FAIL/BLOCKED (min length 3)"
    else if ¬ minLen3 e.actual then
      some "actual is required for FAIL/BLOCKED (min length 3)"
    else none
  else none

/-- Function `validateEvent` embeds the source validator: checks run in source order
and the first violation aborts with its single diagnostic; on success the
normalized event is returned.  Unknown fields (`extra`) are never read. -/
def validateEvent (e : RawPayload) : Except String RelayEvent :=
  let event_id := jsTrim (e.event_id.getD "")
  let repo := jsTrim (e.repo.getD "")
  let role := jsTrim (e.role.getD "")
  let agent := jsTrim (e.agent.getD "")
  let event_type := jsTrim (e.event_type.getD "")
  if event_id = "" ∨ event_id.length < 8 then
    .error "event_id is required (min length 8)"
  else if repo = "" ∨ ¬ isRepoSlug repo then
    .error "repo must be 'org/repo'"
  else
    match e.issue_number with
    | none => .error "issue_number must be a positive integer"
    | some issue_number =>
      if issue_number < 1 then .error "issue_number must be a positive integer"
      else if ¬ (["QA", "DEV", "PM", "MENTOR"].contains role) then
        .error "role must be QA|DEV|PM|MENTOR"
      else if agent = "" ∨ agent.length < 2 then .error "agent is required"
      else if event_type = "" then .error "event_type is required"
      else
        match validateBuild e.build with
        | .error m => .error m
        | .ok build =>
          let environment : Option String := match e.environment with
            | some s => if s ≠ "" then some s else none
            | none => none
          if (match environment with
              | some s => !(["preview", "production", "dev"].contains s)
              | none => false) then
            .error "environment must be preview|production|dev"
          else if (match e.overall_verdict with
              | some v => v != "" && !(verdictStrings.contains v)
              | none => false) then
            .error "overall_verdict invalid"
          else
            match validateScopes e.scope_results with
            | .error m => .error m
            | .ok scope_results =>
              match failBlockedError e with
              | some m => .error m
              | none =>
                match e.evidence_urls with
                | some none => .error "evidence_urls must be an array of strings"
                | some (some l) =>
                  .ok { event_id, repo, issue_number, role, agent, event_type,
                        summary := e.summary, environment, build,
                        overall_verdict := e.overall_verdict, scope_results,
                        severity := e.severity, repro_steps := e.repro_steps,
                        expected := e.expected, actual := e.actual,
                        evidence_urls := some l, artifacts := e.artifacts,
                        details := e.details }
                | none =>
                  .ok { event_id, repo, issue_number, role, agent, event_type,
                        summary := e.summary, environment, build,
                        overall_verdict := e.overall_verdict, scope_results,
                        severity := e.severity, repro_steps := e.repro_steps,
                        expected := e.expected, actual := e.actual,
                        evidence_urls := none, artifacts := e.artifacts,
                        details := e.details }

/-- A fully-absent raw payload, used as the base for concrete test inputs. -/
def emptyRaw : RawPayload :=
  ⟨none, none, none, none, none, none, none, none, none, none, none, none,
   none, none, none, none, none, none, []⟩

/-- A minimal valid QA payload used as a concrete input by witnesses. -/
def sampleRaw : RawPayload :=
  { emptyRaw with
    event_id := some "evt-00000001"
    repo := some "acme/web"
    issue_number := some 42
    role := some "QA"
    agent := some "qa-bot"
    event_type := some "qa.result_submitted"
    overall_verdict := some "PASS"
    build := some ⟨some "ABC1234DEF", some 7⟩ }

/-! ## Forge client and database model -/

/-- A GitHub issue as consumed by the pipeline: labels (already unwrapped to
their names), the assignee login list and the single-assignee fallback. -/
structure Issue where
  labels : List String
  assignees : List String
  assignee : Option String
deriving DecidableEq, Repr

/-- An issue comment as returned by the forge list/create endpoints. -/
structure Comment where
  id : Int
  body : String
deriving DecidableEq, Repr

/-- One forge API call issued by the pipeline, recorded in order.
`listComments` carries the page number and the constant `per_page` the
client sends (always 100). -/
inductive ForgeCall where
  | mintToken : ForgeCall
  | prHead (repo : String) (pr : Int) : ForgeCall
  | getIssue (repo : String) (issue : Int) : ForgeCall
  | listComments (repo : String) (issue : Int) (page : Nat) (perPage : Nat) : ForgeCall
  | createComment (repo : String) (issue : Int) (body : String) : ForgeCall
  | updateComment (repo : String) (commentId : String) (body : String) : ForgeCall
  | putLabels (repo : String) (issue : Int) (labels : List String) : ForgeCall
deriving DecidableEq, Repr

/-- The forge oracle: the response each upstream endpoint would give.
`Except.error` models a non-2xx response, which the typed wrappers raise
as an exception. -/
structure ForgeOracle where
  mintToken : Except String String
  prHeadSha : String → Int → Except String String
  getIssue : String → Int → Except String Issue
  listComments : String → Int → Nat → Except String (List Comment)
  createComment : String → Int → String → Except String Comment
  updateComment : String → String → String → Except String Unit
  putLabels : String → Int → List String → Except String Unit

/-- A stored row of the `events` table. `payload_json` holds the canonical
serialized payload; serialization of the normalized event is injective, so
the row stores the `RelayEvent` value itself. -/
structure EventRow where
  event_id : String
  repo : String
  issue_number : Int
  event_type : String
  role : String
  agent : String
  environment : Option String
  overall_verdict : Option String
  created_at : String
  payload_hash : String
  payload_json : RelayEvent
deriving DecidableEq, Repr

/-- A row of the `relay_status_comment` mapping table. -/
structure MappingRow where
  repo : String
  issue_number : Int
  comment_id : String
  updated_at : String
deriving DecidableEq, Repr

/-- The D1 database state used by the v2 event pipeline. -/
structure DbState where
  events : List EventRow
  mapping : List MappingRow
deriving DecidableEq, Repr

/-- The events-row constructor used by the INSERT in `handlePostEvents`. -/
def mkEventRow (event : RelayEvent) (effectiveVerdict : Option String)
    (now : String) (payloadHash : String) : EventRow :=
  ⟨event.event_id, event.repo, event.issue_number, event.event_type, event.role,
   event.agent, event.environment, effectiveVerdict, now, payloadHash, event⟩

/-! ## Label transition engine -/

/-- One declarative label rule (`LabelRule` in the source). -/
structure LabelRule where
  add : Option (List String)
  remove : Option (List String)
deriving DecidableEq, Repr

/-- The two-level rules table `rules[event_type][verdict_key]`, modelled as
nested association lists. -/
def LabelRules : Type := List (String × List (String × LabelRule))

/-- Insert into a JavaScript `Set` (insertion-ordered, deduplicating). -/
def jsSetInsert (s : List String) (a : String) : List String :=
  if a ∈ s then s else s ++ [a]

/-- JavaScript `new Set(current)`: deduplicate keeping first occurrences. -/
def jsSetOfList (xs : List String) : List String :=
  xs.foldl jsSetInsert []

/-- The label computation of `applyLabelRules`:
`next = (current ∪ add) \ remove` over the JavaScript `Set`. -/
def computeNext (current add rem : List String) : List String :=
  rem.foldl (fun s r => s.filter (fun x => x != r))
    (add.foldl jsSetInsert (jsSetOfList current))

/-- Result of a label-engine run: outcome plus the forge calls issued. -/
structure LabelsOut where
  result : Except String Unit
  calls : List ForgeCall
deriving DecidableEq, Repr

/-- The rule lookup of `applyLabelRules`: the key is the verdict (or `"_"`
when absent), and a missing exact key falls back to `"_"`. -/
def ruleFor (typeRule : List (String × LabelRule)) (verdict : Option String) :
    Option LabelRule :=
  (typeRule.lookup (verdict.getD "_")).orElse (fun _ => typeRule.lookup "_")

/-- Function `applyLabelRules` embeds the source label transition engine.  The first
argument is the result of `parseLabelRules`: `none` models a missing or
invalid `LABEL_RULES_JSON` (the source then returns without acting). -/
def applyLabelRules (forge : ForgeOracle) (rules : Option LabelRules)
    (repo : String) (issueNumber : Int) (eventType : String)
    (verdict : Option String) : LabelsOut :=
  match rules with
  | none => ⟨.ok (), []⟩
  | some rs =>
    match rs.lookup eventType with
    | none => ⟨.ok (), []⟩
    | some typeRule =>
      match ruleFor typeRule verdict with
      | none => ⟨.ok (), []⟩
      | some rule =>
        let add := rule.add.getD []
        let rem := rule.remove.getD []
        match forge.getIssue repo issueNumber with
        | .error e => ⟨.error e, [.getIssue repo issueNumber]⟩
        | .ok issue =>
          let current := issue.labels.filter (fun l => l != "")
          let next := computeNext current add rem
          match forge.putLabels repo issueNumber next with
          | .error e => ⟨.error e, [.getIssue repo issueNumber, .putLabels repo issueNumber next]⟩
          | .ok _ => ⟨.ok (), [.getIssue repo issueNumber, .putLabels repo issueNumber next]⟩

/-! ## Rolling comment upsert -/

/-- Predicate `containsSub hay needle`: does `needle` occur contiguously in `hay`?
(JavaScript `String.prototype.includes`.) -/
def containsSub (hay needle : List Char) : Bool :=
  match hay with
  | [] => needle.isEmpty
  | _ :: t => needle.isPrefixOf hay || containsSub t needle

/-- Marker detection on one comment (`c.body.includes(RELAY_STATUS_MARKER)`). -/
def hasMarker (c : Comment) : Bool :=
  containsSub c.body.toList RELAY_STATUS_MARKER.toList

/-- Outcome of the rolling-comment upsert: the returned comment id (or the
propagated forge error), the new database state, and the calls issued. -/
structure UpsertOut where
  result : Except String String
  db : DbState
  calls : List ForgeCall
deriving DecidableEq, Repr

/-- Statement `INSERT OR REPLACE INTO relay_status_comment`: at most one row per
`(repo, issue_number)`. -/
def upsertMapping (db : DbState) (repo : String) (issueNumber : Int)
    (commentId now : String) : DbState :=
  { db with mapping :=
      (db.mapping.filter fun m => !(m.repo == repo && m.issue_number == issueNumber)) ++
        [⟨repo, issueNumber, commentId, now⟩] }

/-- Statement `UPDATE relay_status_comment SET updated_at = ? WHERE repo = ? AND issue_number = ?`. -/
def bumpMapping (db : DbState) (repo : String) (issueNumber : Int) (now : String) : DbState :=
  { db with mapping := db.mapping.map fun m =>
      if m.repo == repo && m.issue_number == issueNumber then { m with updated_at := now } else m }

/-- The marker-scan loop of the upsert: list comments page by page
(`per_page=100`), stop at the first page containing a marker comment, stop
early on a short page, never read past page 3.  Returns the first marker
comment found (if any) together with the list calls issued. -/
def scanPages (forge : ForgeOracle) (repo : String) (issueNumber : Int) :
    Nat → Nat → Except String (Option Comment) × List ForgeCall
  | 0, _ => (.ok none, [])
  | fuel + 1, page =>
    if page > 3 then (.ok none, [])
    else
      match forge.listComments repo issueNumber page with
      | .error e => (.error e, [.listComments repo issueNumber page 100])
      | .ok comments =>
        match comments.find? hasMarker with
        | some c => (.ok (some c), [.listComments repo issueNumber page 100])
        | none =>
          if comments.length < 100 then (.ok none, [.listComments repo issueNumber page 100])
          else
            let r := scanPages forge repo issueNumber fuel (page + 1)
            (r.1, .listComments repo issueNumber page 100 :: r.2)

/-- Tier 3 of the upsert: create a fresh comment and record its id in the
mapping table. -/
def createTier (forge : ForgeOracle) (now : String) (db : DbState) (repo : String)
    (issueNumber : Int) (body : String) (prevCalls : List ForgeCall) : UpsertOut :=
  match forge.createComment repo issueNumber body with
  | .error e => ⟨.error e, db, prevCalls ++ [.createComment repo issueNumber body]⟩
  | .ok c =>
    let cid := toString c.id
    ⟨.ok cid, upsertMapping db repo issueNumber cid now,
     prevCalls ++ [.createComment repo issueNumber body]⟩

/-- Tiers 2–3 of the upsert: marker scan, then create.  An update failure on
the marker-found comment propagates (the source does not guard this call
with try/catch). -/
def scanOrCreate (forge : ForgeOracle) (now : String) (db : DbState) (repo : String)
    (issueNumber : Int) (body : String) : UpsertOut :=
  let s := scanPages forge repo issueNumber 3 1
  match s.1 with
  | .error e => ⟨.error e, db, s.2⟩
  | .ok (some c) =>
    if c.id ≠ 0 then
      let cid := toString c.id
      match forge.updateComment repo cid body with
      | .error e => ⟨.error e, db, s.2 ++ [.updateComment repo cid body]⟩
      | .ok _ =>
        ⟨.ok cid, upsertMapping db repo issueNumber cid now,
         s.2 ++ [.updateComment repo cid body]⟩
    else createTier forge now db repo issueNumber body s.2
  | .ok none => createTier forge now db repo issueNumber body s.2

/-- Function `upsertRollingComment` embeds the three-tier upsert: mapping-table hit
(update failure swallowed by try/catch and falling through), marker scan,
create. -/
def upsertRollingComment (forge : ForgeOracle) (now : String) (db : DbState)
    (repo : String) (issueNumber : Int) (body : String) : UpsertOut :=
  match db.mapping.find? (fun m => m.repo == repo && m.issue_number == issueNumber) with
  | some m =>
    if m.comment_id ≠ "" then
      match forge.updateComment repo m.comment_id body with
      | .ok _ =>
        ⟨.ok m.comment_id, bumpMapping db repo issueNumber now,
         [.updateComment repo m.comment_id body]⟩
      | .error _ =>
        let r := scanOrCreate forge now db repo issueNumber body
        ⟨r.result, r.db, .updateComment repo m.comment_id body :: r.calls⟩
    else scanOrCreate forge now db repo issueNumber body
  | none => scanOrCreate forge now db repo issueNumber body

/-! ## Event-log queries feeding the renderer -/

/-- Predicate used by the latest-by-type and recent-activity queries. -/
def rowMatches (repo : String) (issueNumber : Int) (r : EventRow) : Bool :=
  r.repo == repo && r.issue_number == issueNumber

/-- Query `SELECT … ORDER BY created_at DESC LIMIT 1` filtered by
`(repo, issue_number, event_type)`: the row with the greatest `created_at`
(first stored wins on ties). -/
def getLatestEventByType (db : DbState) (repo : String) (issueNumber : Int)
    (eventType : String) : Option EventRow :=
  (db.events.filter fun r => rowMatches repo issueNumber r && r.event_type == eventType).foldl
    (fun acc r =>
      match acc with
      | none => some r
      | some b => if b.created_at < r.created_at then some r else some b)
    none

/-- Insert a row into a list sorted by `created_at` descending (stable). -/
def insertDesc (r : EventRow) : List EventRow → List EventRow
  | [] => [r]
  | x :: xs => if x.created_at < r.created_at then r :: x :: xs else x :: insertDesc r xs

/-- Sort rows by `created_at` descending. -/
def sortDesc (rows : List EventRow) : List EventRow := rows.foldr insertDesc []

/-- The row projection consumed by the recent-activity section. -/
structure RecentRow where
  created_at : String
  event_type : String
  agent : String
deriving DecidableEq, Repr

/-- Query `SELECT … ORDER BY created_at DESC LIMIT ?` filtered by
`(repo, issue_number)`. -/
def getRecentEvents (db : DbState) (repo : String) (issueNumber : Int)
    (limit : Nat) : List RecentRow :=
  ((sortDesc (db.events.filter (rowMatches repo issueNumber))).take limit).map
    fun r => ⟨r.created_at, r.event_type, r.agent⟩

/-! ## Rolling comment rendering -/

/-- The provenance record handed to the renderer. -/
structure Provenance where
  pr : Option Int
  commit : Option String
  verified : Option Bool
  prHead : Option String
  environment : Option String
deriving DecidableEq, Repr

/-- The full renderer input (`renderRelayStatusMarkdown`'s argument object). -/
structure RenderInput where
  issue : Issue
  repo : String
  issueNumber : Int
  provenance : Provenance
  latestDev : Option RelayEvent
  latestQa : Option RelayEvent
  recent : List RecentRow
deriving DecidableEq, Repr

/-- Function `normalizeLabels`: unwrap label objects and drop falsy names. -/
def normalizeLabels (issue : Issue) : List String :=
  issue.labels.filter (fun l => l != "")

/-- Function `extractOwner`: first assignee login, the single-assignee fallback, or
`unassigned`. -/
def extractOwner (issue : Issue) : String :=
  match issue.assignees with
  | login :: _ => "@" ++ login
  | [] =>
    match issue.assignee with
    | some login => if login ≠ "" then "@" ++ login else "unassigned"
    | none => "unassigned"

/-- JavaScript `s.startsWith(pre)` on code points. -/
def jsStartsWith (s pre : String) : Bool :=
  pre.toList.isPrefixOf s.toList

/-- Function `pickStatus`: the first `status:` label with the prefix stripped. -/
def pickStatus (labels : List String) : String :=
  match labels.find? (fun l => jsStartsWith l "status:") with
  | some l => String.mk (l.toList.drop 7)
  | none => "unknown"

/-- JavaScript `s.slice(a, b)` on code points. -/
def jsSlice (s : String) (a b : Nat) : String :=
  String.mk ((s.toList.drop a).take (b - a))

/-- Function `formatShortSha`: 7-character short SHA in backticks, or `n/a`. -/
def formatShortSha (sha : Option String) : String :=
  match sha with
  | some s => if s ≠ "" then "`" ++ jsSlice s 0 7 ++ "`" else "n/a"
  | none => "n/a"

/-- One scope-result bullet of the QA section. -/
def scopeLine (s : ScopeResult) : String :=
  "  - " ++ s.id ++ " — " ++ s.status ++
    (match s.notes with
     | some n => if n ≠ "" then " (" ++ n ++ ")" else ""
     | none => "")

/-- One recent-activity bullet (`HH:MMZ — event_type — agent`). -/
def recentLine (r : RecentRow) : String :=
  "- " ++ jsSlice r.created_at 11 16 ++ "Z — " ++ r.event_type ++ " — " ++ r.agent

/-- The lines of the rendered template after the leading marker line and the
blank line that follows it. -/
def renderBodyLines (input : RenderInput) : List String :=
  let labels := normalizeLabels input.issue
  let owner := extractOwner input.issue
  let status := pickStatus labels
  let pr := match input.provenance.pr with
    | some p => if p ≠ 0 then "#" ++ toString p else "n/a"
    | none => "n/a"
  let commit := formatShortSha input.provenance.commit
  let envStr := match input.provenance.environment with
    | some s => if s ≠ "" then s else "unknown"
    | none => "unknown"
  let prov := match input.provenance.verified with
    | none => "n/a"
    | some true => "VERIFIED (matches PR head)"
    | some false => "UNVERIFIED (PR head: " ++ formatShortSha input.provenance.prHead ++ ")"
  let qaVerdict := match input.latestQa with
    | some qa => match qa.overall_verdict with
      | some v => if v ≠ "" then v else "n/a"
      | none => "n/a"
    | none => "n/a"
  let qaScope := match input.latestQa with
    | some qa => qa.scope_results.getD []
    | none => []
  let qaEvidence := match input.latestQa with
    | some qa => qa.evidence_urls.getD []
    | none => []
  let devSummary := match input.latestDev with
    | some dev => match dev.summary with
      | some s => if s ≠ "" then s else ""
      | none => ""
    | none => ""
  let scopeLines := if qaScope.length ≠ 0 then
      String.intercalate "\n" (qaScope.map scopeLine)
    else "  - n/a"
  let evidenceLines := if qaEvidence.length ≠ 0 then
      String.intercalate "\n" (qaEvidence.map (fun u => "  - " ++ u))
    else "  - n/a"
  let recentLines := if input.recent.length ≠ 0 then
      String.intercalate "\n" (input.recent.map recentLine)
    else "- n/a"
  [
    "## Relay Status — ISSUE #" ++ toString input.issueNumber,
    "",
    "### Current State",
    "- Status: `" ++ status ++ "`",
    "- Labels: " ++ (if labels.length ≠ 0 then
        String.intercalate ", " (labels.map (fun l => "`" ++ l ++ "`"))
      else "n/a"),
    "- Owner: " ++ owner,
    "",
    "### Build Provenance",
    "- Environment: `" ++ envStr ++ "`",
    "- PR: " ++ pr,
    "- Commit: " ++ commit,
    "- Provenance: " ++ prov,
    "",
    "### Latest Dev Update",
    (if devSummary ≠ "" then "- Summary: " ++ devSummary else "- Summary: n/a"),
    "",
    "### Latest QA Result",
    "- Verdict: `" ++ qaVerdict ++ "`",
    "- Scope:",
    scopeLines,
    "- Evidence:",
    evidenceLines,
    "",
    "### Recent Activity",
    recentLines,
    ""
  ]

/-- Function `renderRelayStatusMarkdown` embeds the source renderer: a fixed template
joined with newlines, whose first line is the status marker followed by a
blank line and the body sections. -/
def renderRelayStatusMarkdown (input : RenderInput) : String :=
  String.intercalate "\n" (RELAY_STATUS_MARKER :: "" :: renderBodyLines input)

/-! ## The POST /v2/events pipeline -/

/-- The JSON responses the events handler can produce.  `badRequest` is 400,
`conflictResp` is 409 (carrying both hashes), `idempotentResp` is 200 with
`{ok, idempotent, event_id}`, `created` is 201 with the stored flag, the
rolling-comment id, the effective verdict and the provenance flag, and
`internalError` is the 500 produced when a forge call fails. -/
inductive V2Response where
  | badRequest (message : String) : V2Response
  | conflictResp (event_id existing_hash new_hash : String) : V2Response
  | idempotentResp (event_id : String) : V2Response
  | created (event_id : String) (rolling_comment_id : String)
      (verdict : Option String) (provenance_verified : Option Bool) : V2Response
  | internalError (details : String) : V2Response
deriving DecidableEq, Repr

/-- One pipeline run: the response, the resulting database state and the
ordered trace of forge calls. -/
structure PipelineOut where
  response : V2Response
  db : DbState
  calls : List ForgeCall
deriving DecidableEq, Repr

/-- The provenance downgrade of `handlePostEvents`: an unverified PASS
becomes PASS_UNVERIFIED; every other verdict (or none) passes through. -/
def downgradeVerdict (verdict : Option String) (verified : Bool) : Option String :=
  if ¬ verified ∧ verdict = some "PASS" then some "PASS_UNVERIFIED" else verdict

/-- The pipeline tail that runs after the provenance step: insert the event
row, fetch the issue, query the latest dev/qa events and recent activity,
render and upsert the rolling comment, apply label rules, respond. -/
def downstream (now : String) (rules : Option LabelRules) (forge : ForgeOracle)
    (db : DbState) (event : RelayEvent) (payloadHash : String)
    (provenanceVerified : Option Bool) (prHeadSha : Option String)
    (effectiveVerdict : Option String) (calls0 : List ForgeCall) : PipelineOut :=
  let row := mkEventRow event effectiveVerdict now payloadHash
  let db1 : DbState := { db with events := db.events ++ [row] }
  match forge.getIssue event.repo event.issue_number with
  | .error e =>
    ⟨.internalError e, db1, calls0 ++ [.getIssue event.repo event.issue_number]⟩
  | .ok issue =>
    let latestDev := (getLatestEventByType db1 event.repo event.issue_number "dev.update").map
      (fun r => r.payload_json)
    let latestQa := (getLatestEventByType db1 event.repo event.issue_number
      "qa.result_submitted").map (fun r => r.payload_json)
    let recent := getRecentEvents db1 event.repo event.issue_number 5
    let provenance : Provenance :=
      ⟨event.build.bind (fun b => b.pr), event.build.map (fun b => b.commit_sha),
       provenanceVerified, prHeadSha, event.environment⟩
    let body := renderRelayStatusMarkdown
      ⟨issue, event.repo, event.issue_number, provenance, latestDev, latestQa, recent⟩
    let up := upsertRollingComment forge now db1 event.repo event.issue_number body
    match up.result with
    | .error e =>
      ⟨.internalError e, up.db,
       calls0 ++ [.getIssue event.repo event.issue_number] ++ up.calls⟩
    | .ok commentId =>
      let lab := applyLabelRules forge rules event.repo event.issue_number
        event.event_type effectiveVerdict
      match lab.result with
      | .error e =>
        ⟨.internalError e, up.db,
         calls0 ++ [.getIssue event.repo event.issue_number] ++ up.calls ++ lab.calls⟩
      | .ok _ =>
        ⟨.created event.event_id commentId effectiveVerdict provenanceVerified, up.db,
         calls0 ++ [.getIssue event.repo event.issue_number] ++ up.calls ++ lab.calls⟩

/-- Function `handlePostEvents` embeds the source handler after auth and JSON parse:
validate, hash the canonical payload, idempotency lookup, mint the forge
token, provenance check with verdict downgrade, then the downstream
pipeline.  `hash` abstracts SHA-256 over the canonical serialization; `now`
is the server clock reading; `rules` is the parsed `LABEL_RULES_JSON`. -/
def handlePostEvents (hash : RelayEvent → String) (now : String)
    (rules : Option LabelRules) (forge : ForgeOracle) (db : DbState)
    (raw : RawPayload) : PipelineOut :=
  match validateEvent raw with
  | .error m => ⟨.badRequest m, db, []⟩
  | .ok event =>
    let payloadHash := hash event
    match db.events.find? (fun r => r.event_id == event.event_id) with
    | some row =>
      if row.payload_hash ≠ payloadHash then
        ⟨.conflictResp event.event_id row.payload_hash payloadHash, db, []⟩
      else ⟨.idempotentResp event.event_id, db, []⟩
    | none =>
      match forge.mintToken with
      | .error e => ⟨.internalError e, db, [.mintToken]⟩
      | .ok _ =>
        match event.build with
        | some b =>
          match b.pr with
          | some pr =>
            if pr ≠ 0 ∧ b.commit_sha ≠ "" then
              match forge.prHeadSha event.repo pr with
              | .error e =>
                ⟨.internalError e, db, [.mintToken, .prHead event.repo pr]⟩
              | .ok rawSha =>
                let prHeadLower := jsToLower rawSha
                let verified := prHeadLower == jsToLower b.commit_sha
                downstream now rules forge db event payloadHash (some verified)
                  (some prHeadLower) (downgradeVerdict event.overall_verdict verified)
                  [.mintToken, .prHead event.repo pr]
            else
              downstream now rules forge db event payloadHash none none
                event.overall_verdict [.mintToken]
          | none =>
            downstream now rules forge db event payloadHash none none
              event.overall_verdict [.mintToken]
        | none =>
          downstream now rules forge db event payloadHash none none
            event.overall_verdict [.mintToken]

/-! ## Concrete instances used by witnesses and counterexamples -/

/-- A trivial executable stand-in for SHA-256 over the canonical payload:
any function works for the theorems, which are parametric in `hash`. -/
def hash0 (e : RelayEvent) : String := "h:" ++ e.event_id ++ ":" ++ (e.overall_verdict.getD "-")

/-- A fixed clock reading. -/
def now0 : String := "2026-02-03T04:05:06.000Z"

/-- The issue used by concrete runs. -/
def issue0 : Issue := ⟨["status:qa", "prio:P1"], ["dev-alice"], none⟩

/-- A benign forge oracle: every endpoint succeeds; PR 7's head SHA matches
`sampleRaw`'s reported commit; the issue has no prior comments. -/
def forgeOk : ForgeOracle where
  mintToken := .ok "tok"
  prHeadSha := fun _ _ => .ok "ABC1234DEF"
  getIssue := fun _ _ => .ok issue0
  listComments := fun _ _ _ => .ok []
  createComment := fun _ _ body => .ok ⟨501, body⟩
  updateComment := fun _ _ _ => .ok ()
  putLabels := fun _ _ _ => .ok ()

/-- The empty database. -/
def db0 : DbState := ⟨[], []⟩

/-- A concrete renderer input used by witnesses. -/
def renderInput0 : RenderInput :=
  ⟨issue0, "acme/web", 42,
   ⟨some 7, some "abc1234def", some true, some "abc1234def", some "preview"⟩,
   none, none, [⟨now0, "qa.result_submitted", "qa-bot"⟩]⟩

/-! # Supporting lemmas -/

/-- The inner loop of `String.intercalate` only ever appends to its
accumulator. -/
theorem intercalate_go_data (s : String) :
    ∀ (l : List String) (acc : String),
      ∃ t, (String.intercalate.go acc s l).data = acc.data ++ t := by
  intro l
  induction l with
  | nil => intro acc; exact ⟨[], by simp [String.intercalate.go]⟩
  | cons a as ih =>
    intro acc
    obtain ⟨t, ht⟩ := ih (acc ++ s ++ a)
    refine ⟨s.data ++ a.data ++ t, ?_⟩
    show (String.intercalate.go (acc ++ s ++ a) s as).data = _
    rw [ht, String.data_append, String.data_append]
    simp [List.append_assoc]

/-- Joining a list whose head two entries are `a` and `""` yields a string
whose characters start with `a`'s characters followed by the separator. -/
theorem intercalate_marker_data (a : String) (l : List String) :
    ∃ t, (String.intercalate "\n" (a :: "" :: l)).data = a.data ++ '\n' :: t := by
  obtain ⟨t, ht⟩ := intercalate_go_data "\n" l (a ++ "\n" ++ "")
  refine ⟨t, ?_⟩
  show (String.intercalate.go a "\n" ("" :: l)).data = _
  show (String.intercalate.go (a ++ "\n" ++ "") "\n" l).data = _
  rw [ht, String.data_append, String.data_append]
  simp

/-- Taking `takeWhile` of "not a newline" recovers exactly the newline-free prefix. -/
theorem takeWhile_until_newline (xs ys : List Char) (h : ∀ c ∈ xs, c ≠ '\n') :
    (xs ++ '\n' :: ys).takeWhile (fun c => c != '\n') = xs := by
  induction xs with
  | nil => simp [List.takeWhile]
  | cons a t ih =>
    have ha : (a != '\n') = true := by
      simpa using h a (by simp)
    simp only [List.cons_append, List.takeWhile, ha]
    rw [show t.append ('\n' :: ys) = t ++ '\n' :: ys from rfl,
      ih fun c hc => h c (by simp [hc])]

/-- The first line of a string: its characters before the first newline. -/
def firstLine (s : String) : String :=
  String.mk (s.data.takeWhile (fun c => c != '\n'))

/-! # Claims -/

/-- C8: For every input, the rendered rolling-comment body begins with the
literal marker `<!-- RELAY_STATUS v2 -->` on its first line. -/
theorem claim_C8 (input : RenderInput) :
    (∃ t, (renderRelayStatusMarkdown input).data = RELAY_STATUS_MARKER.data ++ '\n' :: t) ∧
    firstLine (renderRelayStatusMarkdown input) = RELAY_STATUS_MARKER := by
  obtain ⟨t, ht⟩ := intercalate_marker_data RELAY_STATUS_MARKER (renderBodyLines input)
  have hdata : (renderRelayStatusMarkdown input).data =
      RELAY_STATUS_MARKER.data ++ '\n' :: t := ht
  refine ⟨⟨t, hdata⟩, ?_⟩
  unfold firstLine
  rw [hdata, takeWhile_until_newline _ _ (by decide)]

/-- C9: The rolling-comment renderer is a pure function of its inputs: two
invocations with equal inputs produce byte-identical markdown.  (The
embedding is a function precisely because the source renderer reads no
ambient state: its output is assembled from its argument object and the
constant marker only.) -/
theorem claim_C9 (a b : RenderInput) (h : a = b) :
    renderRelayStatusMarkdown a = renderRelayStatusMarkdown b := by
  rw [h]

/-- Witness for C9 at a concrete renderer input. -/
theorem claim_C9_witness :
    renderInput0 = renderInput0 ∧
    renderRelayStatusMarkdown renderInput0 = renderRelayStatusMarkdown renderInput0 :=
  ⟨rfl, claim_C9 renderInput0 renderInput0 rfl⟩

/-- Membership after one JavaScript-`Set` insertion. -/
theorem mem_jsSetInsert (s : List String) (a x : String) :
    x ∈ jsSetInsert s a ↔ x ∈ s ∨ x = a := by
  unfold jsSetInsert
  split
  · constructor
    · exact fun hx => Or.inl hx
    · rintro (hx | rfl) <;> simp_all
  · simp [List.mem_append]

/-- Membership after inserting a whole list into a JavaScript `Set`. -/
theorem mem_foldl_jsSetInsert (adds : List String) :
    ∀ (s : List String) (x : String),
      x ∈ adds.foldl jsSetInsert s ↔ x ∈ s ∨ x ∈ adds := by
  induction adds with
  | nil => simp
  | cons a t ih =>
    intro s x
    rw [List.foldl_cons, ih, mem_jsSetInsert]
    simp [or_assoc]

/-- JavaScript `new Set(xs)` has exactly the members of `xs`. -/
theorem mem_jsSetOfList (xs : List String) (x : String) :
    x ∈ jsSetOfList xs ↔ x ∈ xs := by
  unfold jsSetOfList
  rw [mem_foldl_jsSetInsert]
  simp

/-- Membership after deleting a whole list from a JavaScript `Set`. -/
theorem mem_foldl_delete (rems : List String) :
    ∀ (s : List String) (x : String),
      x ∈ rems.foldl (fun s r => s.filter (fun y => y != r)) s ↔ x ∈ s ∧ x ∉ rems := by
  induction rems with
  | nil => simp
  | cons r t ih =>
    intro s x
    rw [List.foldl_cons, ih]
    simp only [List.mem_filter, bne_iff_ne, ne_eq, List.mem_cons]
    tauto

/-- The label computation realizes `next = (current ∪ add) \ remove`. -/
theorem mem_computeNext (current add rem : List String) (x : String) :
    x ∈ computeNext current add rem ↔ (x ∈ current ∨ x ∈ add) ∧ x ∉ rem := by
  unfold computeNext
  rw [mem_foldl_delete, mem_foldl_jsSetInsert, mem_jsSetOfList]

/-- C4: the label transition engine looks up `rules[event_type][verdict]`
falling back to the `"_"` key when the verdict is absent or has no exact
key; a missing event type, a missing rule, or invalid rules JSON is a
no-op; otherwise it fetches the issue's current labels, computes
`next = (current ∪ add) \ remove`, and issues exactly one full label-set
replace call carrying `next` (no separate add/remove calls), preserving
every label not mentioned by the rule. -/
theorem claim_C4 (forge : ForgeOracle) (rules : LabelRules) (repo : String)
    (issueNumber : Int) (eventType : String) (verdict : Option String) :
    (applyLabelRules forge none repo issueNumber eventType verdict = ⟨.ok (), []⟩)
    ∧
    (rules.lookup eventType = none →
      applyLabelRules forge (some rules) repo issueNumber eventType verdict = ⟨.ok (), []⟩)
    ∧
    (∀ typeRule, rules.lookup eventType = some typeRule →
      ruleFor typeRule verdict = none →
      applyLabelRules forge (some rules) repo issueNumber eventType verdict = ⟨.ok (), []⟩)
    ∧
    (∀ typeRule rule, (typeRule : List (String × LabelRule)).lookup (verdict.getD "_") = some rule →
      ruleFor typeRule verdict = some rule)
    ∧
    (∀ typeRule, (typeRule : List (String × LabelRule)).lookup (verdict.getD "_") = none →
      ruleFor typeRule verdict = typeRule.lookup "_")
    ∧
    (∀ typeRule rule issue, rules.lookup eventType = some typeRule →
      ruleFor typeRule verdict = some rule →
      forge.getIssue repo issueNumber = .ok issue →
      forge.putLabels repo issueNumber
        (computeNext (issue.labels.filter (fun l => l != ""))
          (rule.add.getD []) (rule.remove.getD [])) = .ok () →
      applyLabelRules forge (some rules) repo issueNumber eventType verdict =
        ⟨.ok (), [.getIssue repo issueNumber,
                  .putLabels repo issueNumber
                    (computeNext (issue.labels.filter (fun l => l != ""))
                      (rule.add.getD []) (rule.remove.getD []))]⟩)
    ∧
    (∀ current add rem x, x ∈ computeNext current add rem ↔
      (x ∈ current ∨ x ∈ add) ∧ x ∉ rem) := by
  refine ⟨rfl, ?_, ?_, ?_, ?_, ?_, fun c a r x => mem_computeNext c a r x⟩
  · intro h
    simp only [applyLabelRules, h]
  · intro typeRule h hr
    simp only [applyLabelRules, h, hr]
  · intro typeRule rule h
    unfold ruleFor
    rw [h]
    rfl
  · intro typeRule h
    unfold ruleFor
    rw [h]
    rfl
  · intro typeRule rule issue h hr hi hp
    simp only [applyLabelRules, h, hr, hi, hp]

/-- The concrete rules table of the spec's label-transition scenario. -/
def rules6 : LabelRules :=
  [("qa.result_submitted",
    [("PASS", ⟨some ["status:verified"], some ["status:qa"]⟩),
     ("FAIL", ⟨some ["status:rejected"], some ["status:qa"]⟩)])]

/-- Witness for C4: the scenario-6 run replaces the full label set with
exactly `(current ∪ add) \ remove` in one call. -/
theorem claim_C4_witness :
    applyLabelRules forgeOk (some rules6) "acme/web" 42 "qa.result_submitted" (some "PASS") =
      ⟨.ok (), [.getIssue "acme/web" 42,
                .putLabels "acme/web" 42 ["prio:P1", "status:verified"]]⟩ := by
  have h := (claim_C4 forgeOk rules6 "acme/web" 42 "qa.result_submitted"
    (some "PASS")).2.2.2.2.2.1
  exact h [("PASS", ⟨some ["status:verified"], some ["status:qa"]⟩),
           ("FAIL", ⟨some ["status:rejected"], some ["status:qa"]⟩)]
    ⟨some ["status:verified"], some ["status:qa"]⟩ issue0
    (by decide) (by decide) rfl rfl

/-- Every list call of the marker scan targets a page between `page` and 3
with `per_page = 100`. -/
theorem scanPages_calls_bound (forge : ForgeOracle) (repo : String) (issueNumber : Int) :
    ∀ (fuel page : Nat),
      ∀ c ∈ (scanPages forge repo issueNumber fuel page).2,
        ∃ p, page ≤ p ∧ p ≤ 3 ∧ c = ForgeCall.listComments repo issueNumber p 100 := by
  intro fuel
  induction fuel with
  | zero =>
    intro page c hc
    simp [scanPages] at hc
  | succ n ih =>
    intro page c hc
    unfold scanPages at hc
    split at hc
    · simp at hc
    · rename_i hpage
      have hp3 : page ≤ 3 := by omega
      split at hc
      · simp at hc
        exact ⟨page, le_refl _, hp3, hc⟩
      · split at hc
        · simp at hc
          exact ⟨page, le_refl _, hp3, hc⟩
        · split at hc
          · simp at hc
            exact ⟨page, le_refl _, hp3, hc⟩
          · simp only [List.mem_cons] at hc
            rcases hc with rfl | hc
            · exact ⟨page, le_refl _, hp3, rfl⟩
            · obtain ⟨p, h1, h2, h3⟩ := ih (page + 1) c hc
              exact ⟨p, by omega, h2, h3⟩

/-- When the marker scan reports a comment, that comment contains the
marker. -/
theorem scanPages_found_marker (forge : ForgeOracle) (repo : String) (issueNumber : Int) :
    ∀ (fuel page : Nat) (c : Comment) (calls : List ForgeCall),
      scanPages forge repo issueNumber fuel page = (.ok (some c), calls) →
      hasMarker c = true := by
  intro fuel
  induction fuel with
  | zero =>
    intro page c calls h
    simp [scanPages] at h
  | succ n ih =>
    intro page c calls h
    unfold scanPages at h
    split at h
    · simp at h
    · split at h
      · simp at h
      · rename_i comments hcomments
        split at h
        · rename_i c' hfind
          have := List.find?_some hfind
          simp at h
          rw [← h.1]
          exact this
        · split at h
          · simp at h
          · have h1 : scanPages forge repo issueNumber n (page + 1) =
                (.ok (some c), (scanPages forge repo issueNumber n (page + 1)).2) := by
              have hfst := congrArg Prod.fst h
              simp at hfst
              exact Prod.ext hfst rfl
            exact ih (page + 1) c _ h1

/-- C3: the rolling-comment upsert is a three-tier fallback.  Tier 1: a
mapping hit attempts the update; success bumps `updated_at` and returns the
mapped id, and any failure falls through.  Tier 2: pages of 100 comments are
listed (never past page 3) and the first comment containing the marker is
updated and recorded in the mapping table.  Tier 3: only when no marker
comment was found is a fresh comment created and recorded. -/
theorem claim_C3 (forge : ForgeOracle) (now : String) (db : DbState) (repo : String)
    (issueNumber : Int) (body : String) :
    (∀ m u,
      db.mapping.find? (fun m => m.repo == repo && m.issue_number == issueNumber) = some m →
      m.comment_id ≠ "" → forge.updateComment repo m.comment_id body = .ok u →
      upsertRollingComment forge now db repo issueNumber body =
        ⟨.ok m.comment_id, bumpMapping db repo issueNumber now,
         [.updateComment repo m.comment_id body]⟩)
    ∧
    (∀ m e,
      db.mapping.find? (fun m => m.repo == repo && m.issue_number == issueNumber) = some m →
      m.comment_id ≠ "" → forge.updateComment repo m.comment_id body = .error e →
      upsertRollingComment forge now db repo issueNumber body =
        ⟨(scanOrCreate forge now db repo issueNumber body).result,
         (scanOrCreate forge now db repo issueNumber body).db,
         .updateComment repo m.comment_id body ::
           (scanOrCreate forge now db repo issueNumber body).calls⟩)
    ∧
    (db.mapping.find? (fun m => m.repo == repo && m.issue_number == issueNumber) = none →
      upsertRollingComment forge now db repo issueNumber body =
        scanOrCreate forge now db repo issueNumber body)
    ∧
    (∀ c ∈ (scanPages forge repo issueNumber 3 1).2,
      ∃ p, 1 ≤ p ∧ p ≤ 3 ∧ c = ForgeCall.listComments repo issueNumber p 100)
    ∧
    (∀ c calls, scanPages forge repo issueNumber 3 1 = (.ok (some c), calls) →
      hasMarker c = true)
    ∧
    (∀ comments c, forge.listComments repo issueNumber 1 = .ok comments →
      comments.find? hasMarker = some c →
      scanPages forge repo issueNumber 3 1 =
        (.ok (some c), [.listComments repo issueNumber 1 100]))
    ∧
    (∀ c calls u, scanPages forge repo issueNumber 3 1 = (.ok (some c), calls) →
      c.id ≠ 0 → forge.updateComment repo (toString c.id) body = .ok u →
      scanOrCreate forge now db repo issueNumber body =
        ⟨.ok (toString c.id), upsertMapping db repo issueNumber (toString c.id) now,
         calls ++ [.updateComment repo (toString c.id) body]⟩)
    ∧
    (∀ calls cc, scanPages forge repo issueNumber 3 1 = (.ok none, calls) →
      forge.createComment repo issueNumber body = .ok cc →
      scanOrCreate forge now db repo issueNumber body =
        ⟨.ok (toString cc.id), upsertMapping db repo issueNumber (toString cc.id) now,
         calls ++ [.createComment repo issueNumber body]⟩) := by
  refine ⟨?_, ?_, ?_,
    scanPages_calls_bound forge repo issueNumber 3 1,
    fun c calls h => scanPages_found_marker forge repo issueNumber 3 1 c calls h,
    ?_, ?_, ?_⟩
  · intro m u hm hne hupd
    simp only [upsertRollingComment, hm, hne, hupd]
    simp
    exact fun hc => absurd hc hne
  · intro m e hm hne hupd
    simp only [upsertRollingComment, hm, hne, hupd]
    simp
    exact fun hc => absurd hc hne
  · intro hm
    simp only [upsertRollingComment, hm]
  · intro comments c hlist hfind
    unfold scanPages
    simp only [hlist, hfind]
    rfl
  · intro c calls u hscan hid hupd
    simp only [scanOrCreate, hscan, hid, hupd]
    simp
    exact fun hc => absurd hc hid
  · intro calls cc hscan hcreate
    simp only [scanOrCreate, hscan, createTier, hcreate]

/-- A database whose mapping table already knows the rolling comment. -/
def dbMap : DbState := ⟨[], [⟨"acme/web", 42, "99", "t0"⟩]⟩

/-- Witness for C3: a mapping-table hit updates the mapped comment and
returns its id. -/
theorem claim_C3_witness :
    upsertRollingComment forgeOk now0 dbMap "acme/web" 42 "B" =
      ⟨.ok "99", bumpMapping dbMap "acme/web" 42 now0,
       [.updateComment "acme/web" "99" "B"]⟩ :=
  (claim_C3 forgeOk now0 dbMap "acme/web" 42 "B").1 ⟨"acme/web", 42, "99", "t0"⟩ ()
    (by decide) (by decide) rfl

/-- Is a forge call a comment creation? -/
def isCreateCall : ForgeCall → Bool
  | .createComment _ _ _ => true
  | _ => false

/-- A pre-existing comment carrying the status marker. -/
def bodyWithMarker : String := "<!-- RELAY_STATUS v2 --> previous status"

/-- A forge where the issue has one marker comment and every comment update
fails with a non-2xx response. -/
def forgeScanUpdFails : ForgeOracle :=
  { forgeOk with
    listComments := fun _ _ page => if page = 1 then .ok [⟨7, bodyWithMarker⟩] else .ok []
    updateComment := fun _ _ _ => .error "update failed" }

/-- Counterexample to C5 as stated: with no mapping row, a marker comment on
page 1, and a failing update, the pipeline terminates with a 500 carrying
the update error — it does not fall through to create a comment. -/
theorem claim_C5_counterexample :
    (handlePostEvents hash0 now0 none forgeScanUpdFails db0 sampleRaw).response =
      .internalError "update failed" ∧
    ((handlePostEvents hash0 now0 none forgeScanUpdFails db0 sampleRaw).calls.filter
      isCreateCall) = [] := by
  decide

/-- C5 (amended): a non-2xx failure of the update-comment call in the
mapping-table tier causes fall-through to the marker scan / create tiers;
but a failure of the update in the marker-scan tier propagates as an error,
and an upsert error surfaces as the pipeline's 500 response. -/
theorem claim_C5 (forge : ForgeOracle) (now : String) (rules : Option LabelRules)
    (db : DbState) (event : RelayEvent) (payloadHash : String)
    (pv : Option Bool) (phs : Option String) (ev : Option String)
    (calls0 : List ForgeCall) (repo : String) (issueNumber : Int) (body : String) :
    (∀ m e,
      db.mapping.find? (fun m => m.repo == repo && m.issue_number == issueNumber) = some m →
      m.comment_id ≠ "" → forge.updateComment repo m.comment_id body = .error e →
      upsertRollingComment forge now db repo issueNumber body =
        ⟨(scanOrCreate forge now db repo issueNumber body).result,
         (scanOrCreate forge now db repo issueNumber body).db,
         .updateComment repo m.comment_id body ::
           (scanOrCreate forge now db repo issueNumber body).calls⟩)
    ∧
    (∀ c calls e, scanPages forge repo issueNumber 3 1 = (.ok (some c), calls) →
      c.id ≠ 0 → forge.updateComment repo (toString c.id) body = .error e →
      scanOrCreate forge now db repo issueNumber body =
        ⟨.error e, db, calls ++ [.updateComment repo (toString c.id) body]⟩)
    ∧
    (∀ e issue,
      forge.getIssue event.repo event.issue_number = .ok issue →
      (∀ b, (upsertRollingComment forge now
          { db with events := db.events ++ [mkEventRow event ev now payloadHash] }
          event.repo event.issue_number b).result = .error e) →
      (downstream now rules forge db event payloadHash pv phs ev calls0).response =
        .internalError e) := by
  refine ⟨?_, ?_, ?_⟩
  · intro m e hm hne hupd
    simp only [upsertRollingComment, hm, hne, hupd]
    simp
    exact fun hc => absurd hc hne
  · intro c calls e hscan hid hupd
    simp only [scanOrCreate, hscan, hid, hupd]
    simp
    exact fun hc => absurd hc hid
  · intro e issue hissue hup
    simp only [downstream, hissue]
    rw [hup]

/-- The validated event produced by `sampleRaw`. -/
def ev0 : RelayEvent :=
  { event_id := "evt-00000001", repo := "acme/web", issue_number := 42,
    role := "QA", agent := "qa-bot", event_type := "qa.result_submitted",
    summary := none, environment := none,
    build := some ⟨"abc1234def", some 7⟩, overall_verdict := some "PASS",
    scope_results := none, severity := none, repro_steps := none,
    expected := none, actual := none, evidence_urls := none,
    artifacts := none, details := none }

/-- Witness for C5 (amended): a concrete marker-scan update failure is
propagated by the upsert rather than falling through to create. -/
theorem claim_C5_witness :
    scanOrCreate forgeScanUpdFails now0 db0 "acme/web" 42 "B" =
      ⟨.error "update failed", db0,
       [.listComments "acme/web" 42 1 100, .updateComment "acme/web" "7" "B"]⟩ :=
  (claim_C5 forgeScanUpdFails now0 none db0 ev0 "ph" none none none [] "acme/web" 42 "B").2.1
    ⟨7, bodyWithMarker⟩ [.listComments "acme/web" 42 1 100] "update failed"
    (by decide) (by decide) rfl

/-- Counterexample to C6 as stated: an accepted payload carrying an unknown
field validates to exactly the same canonical event — and the pipeline
stores exactly the same state — as the same payload without it, so the
unknown field is not preserved in the stored `payload_json`. -/
theorem claim_C6_counterexample :
    validateEvent { sampleRaw with extra := [("unknown_field", "surprise")] } =
      validateEvent sampleRaw ∧
    ({ sampleRaw with extra := [("unknown_field", "surprise")] } : RawPayload) ≠ sampleRaw ∧
    (validateEvent sampleRaw).isOk = true ∧
    (handlePostEvents hash0 now0 none forgeOk db0
        { sampleRaw with extra := [("unknown_field", "surprise")] }).db =
      (handlePostEvents hash0 now0 none forgeOk db0 sampleRaw).db :=
  ⟨rfl, by decide, by decide, rfl⟩

/-- C6 (amended): unknown fields never cause rejection — validation and the
whole pipeline are independent of them — but they are not preserved: the
canonical payload is rebuilt from the recognized schema fields only, so the
stored `payload_json` drops them. -/
theorem claim_C6 (e : RawPayload) (ex : List (String × String))
    (hash : RelayEvent → String) (now : String) (rules : Option LabelRules)
    (forge : ForgeOracle) (db : DbState) :
    validateEvent { e with extra := ex } = validateEvent e ∧
    handlePostEvents hash now rules forge db { e with extra := ex } =
      handlePostEvents hash now rules forge db e :=
  ⟨rfl, rfl⟩

/-- Drop the four fields that are conditionally required on FAIL/BLOCKED. -/
def stripConditionals (e : RawPayload) : RawPayload :=
  { e with severity := none, repro_steps := none, expected := none, actual := none }

@[simp] theorem stripConditionals_event_id (e : RawPayload) :
    (stripConditionals e).event_id = e.event_id := rfl

@[simp] theorem stripConditionals_repo (e : RawPayload) :
    (stripConditionals e).repo = e.repo := rfl

@[simp] theorem stripConditionals_issue_number (e : RawPayload) :
    (stripConditionals e).issue_number = e.issue_number := rfl

@[simp] theorem stripConditionals_role (e : RawPayload) :
    (stripConditionals e).role = e.role := rfl

@[simp] theorem stripConditionals_agent (e : RawPayload) :
    (stripConditionals e).agent = e.agent := rfl

@[simp] theorem stripConditionals_event_type (e : RawPayload) :
    (stripConditionals e).event_type = e.event_type := rfl

@[simp] theorem stripConditionals_summary (e : RawPayload) :
    (stripConditionals e).summary = e.summary := rfl

@[simp] theorem stripConditionals_environment (e : RawPayload) :
    (stripConditionals e).environment = e.environment := rfl

@[simp] theorem stripConditionals_build (e : RawPayload) :
    (stripConditionals e).build = e.build := rfl

@[simp] theorem stripConditionals_overall_verdict (e : RawPayload) :
    (stripConditionals e).overall_verdict = e.overall_verdict := rfl

@[simp] theorem stripConditionals_scope_results (e : RawPayload) :
    (stripConditionals e).scope_results = e.scope_results := rfl

@[simp] theorem stripConditionals_severity (e : RawPayload) :
    (stripConditionals e).severity = none := rfl

@[simp] theorem stripConditionals_repro_steps (e : RawPayload) :
    (stripConditionals e).repro_steps = none := rfl

@[simp] theorem stripConditionals_expected (e : RawPayload) :
    (stripConditionals e).expected = none := rfl

@[simp] theorem stripConditionals_actual (e : RawPayload) :
    (stripConditionals e).actual = none := rfl

@[simp] theorem stripConditionals_evidence_urls (e : RawPayload) :
    (stripConditionals e).evidence_urls = e.evidence_urls := rfl

@[simp] theorem stripConditionals_artifacts (e : RawPayload) :
    (stripConditionals e).artifacts = e.artifacts := rfl

@[simp] theorem stripConditionals_details (e : RawPayload) :
    (stripConditionals e).details = e.details := rfl

/-- When the verdict is neither FAIL nor BLOCKED, the conditional block is
silent. -/
theorem failBlockedError_of_not_fail (e : RawPayload)
    (h1 : e.overall_verdict ≠ some "FAIL") (h2 : e.overall_verdict ≠ some "BLOCKED") :
    failBlockedError e = none := by
  unfold failBlockedError
  rw [if_neg]
  rintro (h | h) <;> simp_all

/-- A silent conditional block on a FAIL/BLOCKED verdict means all four
conditional requirements hold. -/
theorem failBlockedError_fields (e : RawPayload)
    (hv : e.overall_verdict = some "FAIL" ∨ e.overall_verdict = some "BLOCKED")
    (h : failBlockedError e = none) :
    (["P0", "P1", "P2", "P3"].contains (e.severity.getD "")) = true ∧
    minLen3 e.repro_steps = true ∧ minLen3 e.expected = true ∧ minLen3 e.actual = true := by
  unfold failBlockedError at h
  rw [if_pos hv] at h
  repeat' split at h
  all_goals first
    | exact Option.noConfusion h
    | (refine ⟨?_, ?_, ?_, ?_⟩ <;> (simp_all; try tauto))

/-- A successful validation implies the conditional block was silent, and
the verdict and severity are carried into the event verbatim. -/
theorem validateEvent_ok_spec (e : RawPayload) (ev : RelayEvent)
    (h : validateEvent e = .ok ev) :
    failBlockedError e = none ∧ ev.overall_verdict = e.overall_verdict := by
  simp only [validateEvent] at h
  repeat' split at h
  all_goals try exact Except.noConfusion h
  all_goals injection h with h2
  all_goals subst h2
  all_goals exact ⟨by assumption, rfl⟩

set_option maxHeartbeats 1000000 in
/-- C7: an inbound event with verdict FAIL or BLOCKED is rejected (HTTP 400
with the single tripped diagnostic, no row inserted, no forge call) unless
severity is one of P0–P3 and each of repro_steps, expected, actual is
present with trimmed length at least 3; for other verdicts acceptance does
not depend on those fields at all. -/
theorem claim_C7 (hash : RelayEvent → String) (now : String) (rules : Option LabelRules)
    (forge : ForgeOracle) (db : DbState) (e : RawPayload) :
    (∀ m, validateEvent e = .error m →
      handlePostEvents hash now rules forge db e = ⟨.badRequest m, db, []⟩)
    ∧
    (∀ ev, validateEvent e = .ok ev →
      (ev.overall_verdict = some "FAIL" ∨ ev.overall_verdict = some "BLOCKED") →
      (∃ s, e.severity = some s ∧ (s = "P0" ∨ s = "P1" ∨ s = "P2" ∨ s = "P3")) ∧
      (∃ v, e.repro_steps = some v ∧ 3 ≤ (jsTrim v).length) ∧
      (∃ v, e.expected = some v ∧ 3 ≤ (jsTrim v).length) ∧
      (∃ v, e.actual = some v ∧ 3 ≤ (jsTrim v).length))
    ∧
    (e.overall_verdict ≠ some "FAIL" → e.overall_verdict ≠ some "BLOCKED" →
      (validateEvent (stripConditionals e)).isOk = (validateEvent e).isOk) := by
  refine ⟨?_, ?_, ?_⟩
  · intro m hm
    simp only [handlePostEvents, hm]
  · intro ev hok hv
    obtain ⟨hfb, hvd⟩ := validateEvent_ok_spec e ev hok
    rw [hvd] at hv
    obtain ⟨hs, hr, hx, ha⟩ := failBlockedError_fields e hv hfb
    refine ⟨?_, ?_, ?_, ?_⟩
    · cases hsev : e.severity with
      | none => rw [hsev] at hs; simp at hs
      | some s =>
        rw [hsev] at hs
        simp at hs
        exact ⟨s, rfl, hs⟩
    · cases hr' : e.repro_steps with
      | none => rw [hr'] at hr; simp [minLen3] at hr
      | some v =>
        rw [hr'] at hr
        simp [minLen3] at hr
        exact ⟨v, rfl, hr.2⟩
    · cases hx' : e.expected with
      | none => rw [hx'] at hx; simp [minLen3] at hx
      | some v =>
        rw [hx'] at hx
        simp [minLen3] at hx
        exact ⟨v, rfl, hx.2⟩
    · cases ha' : e.actual with
      | none => rw [ha'] at ha; simp [minLen3] at ha
      | some v =>
        rw [ha'] at ha
        simp [minLen3] at ha
        exact ⟨v, rfl, ha.2⟩
  · intro h1 h2
    have hfb := failBlockedError_of_not_fail e h1 h2
    have hfb' := failBlockedError_of_not_fail (stripConditionals e)
      (by simpa using h1) (by simpa using h2)
    simp only [validateEvent, stripConditionals_event_id, stripConditionals_repo,
      stripConditionals_issue_number, stripConditionals_role, stripConditionals_agent,
      stripConditionals_event_type, stripConditionals_summary, stripConditionals_environment,
      stripConditionals_build, stripConditionals_overall_verdict,
      stripConditionals_scope_results, stripConditionals_severity,
      stripConditionals_repro_steps, stripConditionals_expected, stripConditionals_actual,
      stripConditionals_evidence_urls, stripConditionals_artifacts, stripConditionals_details,
      hfb, hfb']
    by_cases c1 : jsTrim (e.event_id.getD "") = "" ∨ (jsTrim (e.event_id.getD "")).length < 8
    · simp only [if_pos c1]
    · simp only [if_neg c1]
      by_cases c2 : jsTrim (e.repo.getD "") = "" ∨ ¬ isRepoSlug (jsTrim (e.repo.getD "")) = true
      · simp only [if_pos c2]
      · simp only [if_neg c2]
        cases c3 : e.issue_number with
        | none => simp only [c3]
        | some n =>
          simp only [c3]
          by_cases c4 : n < 1
          · simp only [if_pos c4]
          · simp only [if_neg c4]
            by_cases c5 : ¬ ["QA", "DEV", "PM", "MENTOR"].contains (jsTrim (e.role.getD "")) = true
            · simp only [if_pos c5]
            · simp only [if_neg c5]
              by_cases c6 : jsTrim (e.agent.getD "") = "" ∨ (jsTrim (e.agent.getD "")).length < 2
              · simp only [if_pos c6]
              · simp only [if_neg c6]
                by_cases c7 : jsTrim (e.event_type.getD "") = ""
                · simp only [if_pos c7]
                · simp only [if_neg c7]
                  cases c8 : validateBuild e.build with
                  | error m => simp only [c8]
                  | ok bld =>
                    simp only [c8]
                    by_cases c9 : (match (match e.environment with
                        | some s => if s ≠ "" then some s else none
                        | none => none) with
                      | some s => !(["preview", "production", "dev"].contains s)
                      | none => false) = true
                    · simp only [if_pos c9]
                    · simp only [if_neg c9]
                      by_cases c10 : (match e.overall_verdict with
                        | some v => v != "" && !(verdictStrings.contains v)
                        | none => false) = true
                      · simp only [if_pos c10]
                      · simp only [if_neg c10]
                        cases c11 : validateScopes e.scope_results with
                        | error m => simp only [c11]
                        | ok scopes =>
                          simp only [c11]
                          cases c12 : e.evidence_urls with
                          | none => simp only [c12]; rfl
                          | some o => cases o with
                            | none => simp only [c12]
                            | some l => simp only [c12]; rfl

/-- A FAIL payload satisfying the conditional requirements. -/
def failRaw : RawPayload :=
  { sampleRaw with
    overall_verdict := some "FAIL"
    severity := some "P1"
    repro_steps := some "run the suite"
    expected := some "all green"
    actual := some "two failures" }

/-- The validated event produced by `failRaw`. -/
def evFail : RelayEvent :=
  { ev0 with
    overall_verdict := some "FAIL"
    severity := some "P1"
    repro_steps := some "run the suite"
    expected := some "all green"
    actual := some "two failures" }

/-- Witness for C7 at a concrete accepted FAIL payload. -/
theorem claim_C7_witness :
    (∃ s, failRaw.severity = some s ∧ (s = "P0" ∨ s = "P1" ∨ s = "P2" ∨ s = "P3")) ∧
    (∃ v, failRaw.repro_steps = some v ∧ 3 ≤ (jsTrim v).length) ∧
    (∃ v, failRaw.expected = some v ∧ 3 ≤ (jsTrim v).length) ∧
    (∃ v, failRaw.actual = some v ∧ 3 ≤ (jsTrim v).length) :=
  (claim_C7 hash0 now0 none forgeOk db0 failRaw).2.1 evFail (by decide) (by decide)

/-- Tier 3 of the upsert never touches the events table. -/
theorem createTier_db_events (forge : ForgeOracle) (now : String) (db : DbState)
    (repo : String) (issueNumber : Int) (body : String) (prevCalls : List ForgeCall) :
    (createTier forge now db repo issueNumber body prevCalls).db.events = db.events := by
  unfold createTier
  split <;> rfl

/-- Tiers 2–3 of the upsert never touch the events table. -/
theorem scanOrCreate_db_events (forge : ForgeOracle) (now : String) (db : DbState)
    (repo : String) (issueNumber : Int) (body : String) :
    (scanOrCreate forge now db repo issueNumber body).db.events = db.events := by
  simp only [scanOrCreate]
  repeat' split
  all_goals first
    | rfl
    | apply createTier_db_events

/-- The whole upsert never touches the events table. -/
theorem upsert_db_events (forge : ForgeOracle) (now : String) (db : DbState)
    (repo : String) (issueNumber : Int) (body : String) :
    (upsertRollingComment forge now db repo issueNumber body).db.events = db.events := by
  simp only [upsertRollingComment]
  repeat' split
  all_goals first
    | rfl
    | apply scanOrCreate_db_events

/-- The downstream pipeline appends exactly the one new events row, whatever
the forge does afterwards. -/
theorem downstream_db_events (now : String) (rules : Option LabelRules)
    (forge : ForgeOracle) (db : DbState) (event : RelayEvent) (payloadHash : String)
    (pv : Option Bool) (phs : Option String) (ev : Option String)
    (calls0 : List ForgeCall) :
    (downstream now rules forge db event payloadHash pv phs ev calls0).db.events =
      db.events ++ [mkEventRow event ev now payloadHash] := by
  simp only [downstream]
  repeat' split
  all_goals first
    | rfl
    | apply upsert_db_events

/-- The downstream pipeline responds either with a 500 or with the 201 that
carries the event id, the effective verdict, and the provenance flag it was
given. -/
theorem downstream_response_shape (now : String) (rules : Option LabelRules)
    (forge : ForgeOracle) (db : DbState) (event : RelayEvent) (payloadHash : String)
    (pv : Option Bool) (phs : Option String) (ev : Option String)
    (calls0 : List ForgeCall) :
    (∃ d, (downstream now rules forge db event payloadHash pv phs ev calls0).response =
      .internalError d) ∨
    (∃ cid, (downstream now rules forge db event payloadHash pv phs ev calls0).response =
      .created event.event_id cid ev pv) := by
  simp only [downstream]
  repeat' split
  all_goals first
    | exact Or.inl ⟨_, rfl⟩
    | exact Or.inr ⟨_, rfl⟩

/-- The downstream pipeline always issues the issue fetch. -/
theorem downstream_getIssue_mem (now : String) (rules : Option LabelRules)
    (forge : ForgeOracle) (db : DbState) (event : RelayEvent) (payloadHash : String)
    (pv : Option Bool) (phs : Option String) (ev : Option String)
    (calls0 : List ForgeCall) :
    ForgeCall.getIssue event.repo event.issue_number ∈
      (downstream now rules forge db event payloadHash pv phs ev calls0).calls := by
  simp only [downstream]
  repeat' split
  all_goals simp

/-- The downstream pipeline keeps every call recorded before it. -/
theorem downstream_calls_mono (now : String) (rules : Option LabelRules)
    (forge : ForgeOracle) (db : DbState) (event : RelayEvent) (payloadHash : String)
    (pv : Option Bool) (phs : Option String) (ev : Option String)
    (calls0 : List ForgeCall) (c : ForgeCall) (hc : c ∈ calls0) :
    c ∈ (downstream now rules forge db event payloadHash pv phs ev calls0).calls := by
  simp only [downstream]
  repeat' split
  all_goals simp [hc]

/-- A successfully validated new event with a provenance-checkable build
reaches the downstream pipeline with the verified flag, the lowercased PR
head, and the (possibly downgraded) effective verdict. -/
theorem handlePost_eq_downstream_build (hash : RelayEvent → String) (now : String)
    (rules : Option LabelRules) (forge : ForgeOracle) (db : DbState) (raw : RawPayload)
    (event : RelayEvent) (b : Build) (pr : Int) (tok sha : String)
    (hval : validateEvent raw = .ok event)
    (hfind : db.events.find? (fun r => r.event_id == event.event_id) = none)
    (hmint : forge.mintToken = .ok tok)
    (hb : event.build = some b) (hpr : b.pr = some pr) (hpr0 : pr ≠ 0)
    (hcs : b.commit_sha ≠ "")
    (hsha : forge.prHeadSha event.repo pr = .ok sha) :
    handlePostEvents hash now rules forge db raw =
      downstream now rules forge db event (hash event)
        (some (jsToLower sha == jsToLower b.commit_sha)) (some (jsToLower sha))
        (downgradeVerdict event.overall_verdict (jsToLower sha == jsToLower b.commit_sha))
        [.mintToken, .prHead event.repo pr] := by
  simp only [handlePostEvents, hval, hfind, hmint, hb, hpr, hsha]
  rw [if_pos ⟨hpr0, hcs⟩]

/-- A successfully validated new event without a build reaches the
downstream pipeline with a null provenance flag and the caller's verdict. -/
theorem handlePost_eq_downstream_nobuild (hash : RelayEvent → String) (now : String)
    (rules : Option LabelRules) (forge : ForgeOracle) (db : DbState) (raw : RawPayload)
    (event : RelayEvent) (tok : String)
    (hval : validateEvent raw = .ok event)
    (hfind : db.events.find? (fun r => r.event_id == event.event_id) = none)
    (hmint : forge.mintToken = .ok tok)
    (hb : event.build = none) :
    handlePostEvents hash now rules forge db raw =
      downstream now rules forge db event (hash event) none none
        event.overall_verdict [.mintToken] := by
  simp only [handlePostEvents, hval, hfind, hmint, hb]

/-- A successfully validated new event whose build has no PR number reaches
the downstream pipeline with a null provenance flag and the caller's
verdict. -/
theorem handlePost_eq_downstream_nopr (hash : RelayEvent → String) (now : String)
    (rules : Option LabelRules) (forge : ForgeOracle) (db : DbState) (raw : RawPayload)
    (event : RelayEvent) (b : Build) (tok : String)
    (hval : validateEvent raw = .ok event)
    (hfind : db.events.find? (fun r => r.event_id == event.event_id) = none)
    (hmint : forge.mintToken = .ok tok)
    (hb : event.build = some b) (hpr : b.pr = none) :
    handlePostEvents hash now rules forge db raw =
      downstream now rules forge db event (hash event) none none
        event.overall_verdict [.mintToken] := by
  simp only [handlePostEvents, hval, hfind, hmint, hb, hpr]

/-- Lemma for `find?` over an append whose first part has no hit. -/
theorem find?_append_of_none {α : Type} (p : α → Bool) (l1 l2 : List α)
    (h : l1.find? p = none) : (l1 ++ l2).find? p = l2.find? p := by
  rw [List.find?_append, h]
  simp

/-- C2: replaying an `event_id` with an identical payload hash responds 200
idempotent with no state change and no forge call; replaying it with a
different hash responds 409 carrying both hashes with no state change and
no forge call; only when no row exists is a row inserted and the downstream
pipeline (issue fetch, comment upsert, label rules) run. -/
theorem claim_C2 (hash : RelayEvent → String) (now : String) (rules : Option LabelRules)
    (forge : ForgeOracle) (db : DbState) (raw : RawPayload) (event : RelayEvent)
    (hval : validateEvent raw = .ok event) :
    (∀ row, db.events.find? (fun r => r.event_id == event.event_id) = some row →
      row.payload_hash = hash event →
      handlePostEvents hash now rules forge db raw =
        ⟨.idempotentResp event.event_id, db, []⟩)
    ∧
    (∀ row, db.events.find? (fun r => r.event_id == event.event_id) = some row →
      row.payload_hash ≠ hash event →
      handlePostEvents hash now rules forge db raw =
        ⟨.conflictResp event.event_id row.payload_hash (hash event), db, []⟩)
    ∧
    (∀ tok, db.events.find? (fun r => r.event_id == event.event_id) = none →
      forge.mintToken = .ok tok → event.build = none →
      (handlePostEvents hash now rules forge db raw).db.events =
        db.events ++ [mkEventRow event event.overall_verdict now (hash event)] ∧
      ForgeCall.getIssue event.repo event.issue_number ∈
        (handlePostEvents hash now rules forge db raw).calls) := by
  refine ⟨?_, ?_, ?_⟩
  · intro row hfind hh
    simp only [handlePostEvents, hval, hfind]
    rw [if_neg (fun hc => hc hh)]
  · intro row hfind hh
    simp only [handlePostEvents, hval, hfind]
    rw [if_pos hh]
  · intro tok hfind hmint hb
    rw [handlePost_eq_downstream_nobuild hash now rules forge db raw event tok
      hval hfind hmint hb]
    exact ⟨downstream_db_events now rules forge db event (hash event) none none
        event.overall_verdict [.mintToken],
      downstream_getIssue_mem now rules forge db event (hash event) none none
        event.overall_verdict [.mintToken]⟩

/-- Witness for C2: a verbatim replay of the stored sample event is answered
idempotently with no forge calls and no state change. -/
theorem claim_C2_witness :
    handlePostEvents hash0 now0 none forgeOk
        ⟨[mkEventRow ev0 (some "PASS") now0 (hash0 ev0)], []⟩ sampleRaw =
      ⟨.idempotentResp "evt-00000001",
       ⟨[mkEventRow ev0 (some "PASS") now0 (hash0 ev0)], []⟩, []⟩ :=
  (claim_C2 hash0 now0 none forgeOk
      ⟨[mkEventRow ev0 (some "PASS") now0 (hash0 ev0)], []⟩ sampleRaw ev0
      (by decide)).1
    (mkEventRow ev0 (some "PASS") now0 (hash0 ev0)) (by decide) (by decide)

/-- C1: when a validated new event carries `build.pr` and `build.commit_sha`,
the pipeline fetches the PR head SHA and compares both sides lowercased; a
false comparison downgrades a caller-supplied PASS to PASS_UNVERIFIED in
both the stored row and the 201 response, any other verdict (or none)
passes through verbatim, and without `build` or `build.pr` the provenance
flag is null and no downgrade occurs. -/
theorem claim_C1 (hash : RelayEvent → String) (now : String) (rules : Option LabelRules)
    (forge : ForgeOracle) (db : DbState) (raw : RawPayload) (event : RelayEvent)
    (tok : String)
    (hval : validateEvent raw = .ok event)
    (hfind : db.events.find? (fun r => r.event_id == event.event_id) = none)
    (hmint : forge.mintToken = .ok tok) :
    (∀ b pr sha, event.build = some b → b.pr = some pr → pr ≠ 0 →
      b.commit_sha ≠ "" → forge.prHeadSha event.repo pr = .ok sha →
      (ForgeCall.prHead event.repo pr ∈
        (handlePostEvents hash now rules forge db raw).calls) ∧
      ((handlePostEvents hash now rules forge db raw).db.events =
        db.events ++ [mkEventRow event
          (downgradeVerdict event.overall_verdict (jsToLower sha == jsToLower b.commit_sha))
          now (hash event)]) ∧
      (∀ cid v pv, (handlePostEvents hash now rules forge db raw).response =
          .created event.event_id cid v pv →
        v = downgradeVerdict event.overall_verdict (jsToLower sha == jsToLower b.commit_sha) ∧
        pv = some (jsToLower sha == jsToLower b.commit_sha)))
    ∧
    (downgradeVerdict (some "PASS") false = some "PASS_UNVERIFIED")
    ∧
    (∀ v, v ≠ some "PASS" → downgradeVerdict v false = v)
    ∧
    (∀ v, downgradeVerdict v true = v)
    ∧
    ((event.build = none ∨ (∃ b, event.build = some b ∧ b.pr = none)) →
      ((handlePostEvents hash now rules forge db raw).db.events =
        db.events ++ [mkEventRow event event.overall_verdict now (hash event)]) ∧
      (∀ cid v pv, (handlePostEvents hash now rules forge db raw).response =
          .created event.event_id cid v pv →
        v = event.overall_verdict ∧ pv = none)) := by
  refine ⟨?_, by simp [downgradeVerdict], ?_, ?_, ?_⟩
  · intro b pr sha hb hpr hpr0 hcs hsha
    rw [handlePost_eq_downstream_build hash now rules forge db raw event b pr tok sha
      hval hfind hmint hb hpr hpr0 hcs hsha]
    refine ⟨downstream_calls_mono _ _ _ _ _ _ _ _ _ _ _ (by simp),
      downstream_db_events _ _ _ _ _ _ _ _ _ _, ?_⟩
    intro cid v pv hresp
    rcases downstream_response_shape now rules forge db event (hash event)
        (some (jsToLower sha == jsToLower b.commit_sha)) (some (jsToLower sha))
        (downgradeVerdict event.overall_verdict (jsToLower sha == jsToLower b.commit_sha))
        [.mintToken, .prHead event.repo pr] with hd | hc
    · obtain ⟨d, hd⟩ := hd
      rw [hd] at hresp
      exact V2Response.noConfusion hresp
    · obtain ⟨cid', hc⟩ := hc
      rw [hc] at hresp
      injection hresp with h1 h2 h3 h4
      exact ⟨h3.symm, h4.symm⟩
  · intro v hv
    simp [downgradeVerdict, hv]
  · intro v
    simp [downgradeVerdict]
  · intro hcase
    have hout : handlePostEvents hash now rules forge db raw =
        downstream now rules forge db event (hash event) none none
          event.overall_verdict [.mintToken] := by
      rcases hcase with hb | ⟨b, hb, hpr⟩
      · exact handlePost_eq_downstream_nobuild hash now rules forge db raw event tok
          hval hfind hmint hb
      · exact handlePost_eq_downstream_nopr hash now rules forge db raw event b tok
          hval hfind hmint hb hpr
    rw [hout]
    refine ⟨downstream_db_events _ _ _ _ _ _ _ _ _ _, ?_⟩
    intro cid v pv hresp
    rcases downstream_response_shape now rules forge db event (hash event) none none
        event.overall_verdict [.mintToken] with hd | hc
    · obtain ⟨d, hd⟩ := hd
      rw [hd] at hresp
      exact V2Response.noConfusion hresp
    · obtain ⟨cid', hc⟩ := hc
      rw [hc] at hresp
      injection hresp with h1 h2 h3 h4
      exact ⟨h3.symm, h4.symm⟩

/-- Witness for C1: the sample event with a matching PR head keeps its PASS
verdict, a provenance fetch occurs, and a response reaching 201 carries the
effective verdict and flag. -/
theorem claim_C1_witness :
    ForgeCall.prHead "acme/web" 7 ∈
      (handlePostEvents hash0 now0 none forgeOk db0 sampleRaw).calls ∧
    (handlePostEvents hash0 now0 none forgeOk db0 sampleRaw).db.events =
      [mkEventRow ev0 (some "PASS") now0 (hash0 ev0)] ∧
    (some "PASS" : Option String) = some "PASS" ∧
    (some true : Option Bool) = some true := by
  have h := (claim_C1 hash0 now0 none forgeOk db0 sampleRaw ev0 "tok"
      (by decide) (by decide) rfl).1
    ⟨"abc1234def", some 7⟩ 7 "ABC1234DEF" rfl rfl (by decide) (by decide) rfl
  have h3 := h.2.2 "501" (some "PASS") (some true) (by decide)
  exact ⟨h.1, h.2.1, h3.1, h3.2⟩

/-- C10: the canonical payload and its hash are fixed before the provenance
check, so a downgrade changes only the `overall_verdict` column of the
inserted row — `payload_json` still carries the caller's original verdict —
and resubmitting the identical payload afterwards hashes identically and
takes the idempotent path with no state change and no forge call. -/
theorem claim_C10 (hash : RelayEvent → String) (now now2 : String)
    (rules rules2 : Option LabelRules) (forge forge2 : ForgeOracle) (db : DbState)
    (raw : RawPayload) (event : RelayEvent) (b : Build) (pr : Int) (tok sha : String)
    (hval : validateEvent raw = .ok event)
    (hfind : db.events.find? (fun r => r.event_id == event.event_id) = none)
    (hmint : forge.mintToken = .ok tok)
    (hb : event.build = some b) (hpr : b.pr = some pr) (hpr0 : pr ≠ 0)
    (hcs : b.commit_sha ≠ "")
    (hsha : forge.prHeadSha event.repo pr = .ok sha) :
    ((handlePostEvents hash now rules forge db raw).db.events =
      db.events ++ [mkEventRow event
        (downgradeVerdict event.overall_verdict (jsToLower sha == jsToLower b.commit_sha))
        now (hash event)])
    ∧
    ((mkEventRow event
        (downgradeVerdict event.overall_verdict (jsToLower sha == jsToLower b.commit_sha))
        now (hash event)).payload_json = event)
    ∧
    ((mkEventRow event
        (downgradeVerdict event.overall_verdict (jsToLower sha == jsToLower b.commit_sha))
        now (hash event)).payload_hash = hash event)
    ∧
    (∀ v1 v2, mkEventRow event v1 now (hash event) =
      { mkEventRow event v2 now (hash event) with overall_verdict := v1 })
    ∧
    (handlePostEvents hash now2 rules2 forge2
        (handlePostEvents hash now rules forge db raw).db raw =
      ⟨.idempotentResp event.event_id,
       (handlePostEvents hash now rules forge db raw).db, []⟩) := by
  rw [handlePost_eq_downstream_build hash now rules forge db raw event b pr tok sha
    hval hfind hmint hb hpr hpr0 hcs hsha]
  have hev := downstream_db_events now rules forge db event (hash event)
    (some (jsToLower sha == jsToLower b.commit_sha)) (some (jsToLower sha))
    (downgradeVerdict event.overall_verdict (jsToLower sha == jsToLower b.commit_sha))
    [.mintToken, .prHead event.repo pr]
  refine ⟨hev, rfl, rfl, fun v1 v2 => rfl, ?_⟩
  have hfind2 : (downstream now rules forge db event (hash event)
      (some (jsToLower sha == jsToLower b.commit_sha)) (some (jsToLower sha))
      (downgradeVerdict event.overall_verdict (jsToLower sha == jsToLower b.commit_sha))
      [.mintToken, .prHead event.repo pr]).db.events.find?
        (fun r => r.event_id == event.event_id) =
      some (mkEventRow event
        (downgradeVerdict event.overall_verdict (jsToLower sha == jsToLower b.commit_sha))
        now (hash event)) := by
    rw [hev, find?_append_of_none _ _ _ hfind]
    simp [List.find?, mkEventRow]
  simp only [handlePostEvents, hval, hfind2]
  rw [if_neg (fun hc => hc rfl)]

/-- Witness for C10: the stored sample row carries the original canonical
payload, and its verbatim resubmission is answered idempotently. -/
theorem claim_C10_witness :
    (mkEventRow ev0 (some "PASS") now0 (hash0 ev0)).payload_json = ev0 ∧
    handlePostEvents hash0 "2026-02-03T05:00:00.000Z" none forgeOk
        (handlePostEvents hash0 now0 none forgeOk db0 sampleRaw).db sampleRaw =
      ⟨.idempotentResp "evt-00000001",
       (handlePostEvents hash0 now0 none forgeOk db0 sampleRaw).db, []⟩ := by
  have h := claim_C10 hash0 now0 "2026-02-03T05:00:00.000Z" none none forgeOk forgeOk
    db0 sampleRaw ev0 ⟨"abc1234def", some 7⟩ 7 "tok" "ABC1234DEF"
    (by decide) (by decide) rfl rfl rfl (by decide) (by decide) rfl
  exact ⟨h.2.1, h.2.2.2.2⟩

end CraneRelay
